import Mathlib

/-!
A shallow embedding of the upload orchestration and table projection logic of
the `ai-app-components` library (files `src/components/S3DragDropUpload.vue`
and `src/components/UploadsTable.vue`, types in `src/types/index.ts`).

The JavaScript environment is modelled explicitly: random draws, HTTP
responses and transfer progress events are inputs to the embedded functions,
and emitted component events (together with the network requests issued) are
collected into an explicit trace.
-/

namespace AppComponents

/-- `status` field of `UploadFile` (src/types/index.ts):
`"pending" | "uploading" | "completed" | "error"`. -/
inductive Status where
  | pending
  | uploading
  | completed
  | error
deriving DecidableEq

/-- The string form of a `Status`, as it appears in the TS union type. -/
def Status.toStr : Status → String
  | .pending => "pending"
  | .uploading => "uploading"
  | .completed => "completed"
  | .error => "error"

/-- The fields of a DOM `File` read by the component: `name`, `size`, `type`. -/
structure FileDesc where
  name : String
  size : Nat
  type : String
deriving DecidableEq

/-- `S3UploadConfig` (src/types/index.ts). `maxFileSize` and `allowedTypes`
are optional fields; `bucket` is never read by the component. -/
structure S3UploadConfig where
  presignedUrlEndpoint : String
  bucket : Option String
  maxFileSize : Option Nat
  allowedTypes : Option (List String)
deriving DecidableEq

/-- `UploadFile` (src/types/index.ts). `uploadedAt` is a `Date`, modelled by
its epoch-milliseconds instant. `progress` is always present on records the
component creates (`createUploadFile` sets it to 0). -/
structure UploadFile where
  id : String
  name : String
  size : Nat
  type : String
  uploadedAt : Int
  s3Key : Option String
  status : Status
  progress : Nat
  error : Option String
deriving DecidableEq

/-- JS truthiness of the optional numeric field `config.maxFileSize`:
`undefined` and `0` are falsy. -/
def truthyNum : Option Nat → Bool
  | none => false
  | some n => !(n == 0)

/-- JS truthiness of `config.allowedTypes?.length`: `undefined` and an empty
array are falsy. -/
def truthyTypes : Option (List String) → Bool
  | none => false
  | some ts => !(ts.length == 0)

/-- One decimal digit of the fractional part of `num / den` (base 10). -/
def fracDigitsAux : Nat → Nat → Nat → List Char
  | 0, _, _ => []
  | _ + 1, 0, _ => []
  | fuel + 1, num, den =>
    Char.ofNat (48 + num * 10 / den) :: fracDigitsAux fuel (num * 10 % den) den

/-- Models the default JS number-to-string conversion (`${n}` interpolation)
for the non-negative dyadic rationals arising as `maxFileSize / 2^20`. On
integers this matches ECMAScript exactly: the bare decimal digits, with no
decimal point. On non-integers it prints the exact terminating decimal
expansion, whereas ECMAScript mandates the shortest round-tripping decimal,
which can be shorter (e.g. `524289 / 2^20` prints as `"0.5000009536743164"`
in JS, not the 20-digit exact expansion); theorems therefore rely on this
function only at integer arguments. -/
def jsNumToString (q : ℚ) : String :=
  let ip : Nat := q.num.toNat / q.den
  let fp : Nat := q.num.toNat % q.den
  if fp = 0 then toString ip
  else toString ip ++ "." ++ String.mk (fracDigitsAux 64 fp q.den)

/-- `maxSizeMB` computed property (S3DragDropUpload.vue line 22):
`config.maxFileSize ? config.maxFileSize / (1024 * 1024) : 100`.
The JS division is exact in double precision for any `maxFileSize < 2^53`,
so an exact rational models it. -/
def maxSizeMB (cfg : S3UploadConfig) : ℚ :=
  if truthyNum cfg.maxFileSize then mkRat (cfg.maxFileSize.getD 0) (1024 * 1024)
  else 100

/-- The size-rejection message built at S3DragDropUpload.vue line 40:
template string interpolation of the `maxSizeMB` number. -/
def sizeExceededMsg (cfg : S3UploadConfig) : String :=
  "File exceeds maximum size of " ++ jsNumToString (maxSizeMB cfg) ++ "MB"

/-- The type-rejection message built at S3DragDropUpload.vue line 46. -/
def typeNotAllowedMsg (f : FileDesc) : String :=
  "File type " ++ f.type ++ " is not allowed"

/-- `validateFile` (S3DragDropUpload.vue lines 38-49). -/
def validateFile (cfg : S3UploadConfig) (f : FileDesc) : Option String :=
  if truthyNum cfg.maxFileSize && decide (cfg.maxFileSize.getD 0 < f.size) then
    some (sizeExceededMsg cfg)
  else if truthyTypes cfg.allowedTypes && !(decide (f.type ∈ cfg.allowedTypes.getD [])) then
    some (typeNotAllowedMsg f)
  else
    none

/-- The base-36 digit alphabet used by `Number.prototype.toString(36)`:
`0`-`9` then lowercase `a`-`z`. -/
def base36Char (d : Fin 36) : Char :=
  if d.val < 10 then Char.ofNat (48 + d.val) else Char.ofNat (97 + (d.val - 10))

/-- `generateId` (S3DragDropUpload.vue line 26):
`Math.random().toString(36).substring(2, 11)`. The random draw in `[0, 1)` is
modelled by the list of base-36 digits of its fractional expansion with
trailing zeros stripped (which is what `toString(36)` emits after `"0."`;
for a draw of exactly 0 the string is `"0"` and the substring is empty,
matching the empty digit list). `substring(2, 11)` keeps the first nine
digit characters. -/
def generateId (draw : List (Fin 36)) : String :=
  String.mk ((draw.take 9).map base36Char)

/-- `createUploadFile` (S3DragDropUpload.vue lines 28-36), with the
environment-supplied id draw and `new Date()` instant made explicit. -/
def createUploadFile (id : String) (now : Int) (f : FileDesc) : UploadFile :=
  { id := id
    name := f.name
    size := f.size
    type := f.type
    uploadedAt := now
    s3Key := none
    status := Status.pending
    progress := 0
    error := none }

/-- One XHR upload progress event: `lengthComputable`, `loaded`, `total`. -/
structure ProgressEvent where
  lengthComputable : Bool
  loaded : Nat
  total : Nat
deriving DecidableEq

/-- Terminal outcome of the XHR PUT: a `load` event carrying the HTTP
status, or a network `error` event. -/
inductive XhrOutcome where
  | load (status : Nat)
  | netError
deriving DecidableEq

/-- Environment behaviour of one S3 PUT transfer: the progress events fired
during the upload, then the terminal outcome. -/
structure TransferBehavior where
  events : List ProgressEvent
  outcome : XhrOutcome
deriving DecidableEq

/-- Environment behaviour of the presigned-URL `fetch`: either the request
itself fails (the promise rejects with the given message), or an HTTP
response arrives with the given `ok` flag and JSON body `{uploadUrl, key}`. -/
inductive PresignBehavior where
  | networkFailure (msg : String)
  | httpResponse (ok : Bool) (uploadUrl : String) (key : String)
deriving DecidableEq

/-- Trace entries: the component events emitted (each carrying a snapshot of
the record at emission time — handlers run synchronously on the single
event-loop thread) and the network requests issued. -/
inductive Event where
  | filesSelected (batch : List UploadFile)
  | uploadStart (f : UploadFile)
  | uploadProgress (f : UploadFile)
  | uploadComplete (f : UploadFile)
  | uploadError (f : UploadFile) (msg : String)
  | presignCall (fileName : String)
  | putCall (url : String)
deriving DecidableEq

/-- `Math.round((loaded / total) * 100)` for non-negative operands:
round-half-up of `loaded * 100 / total`. Only used with `total > 0`
(a `lengthComputable` progress event carries a positive total; JS would
produce `NaN` at `total = 0`). -/
def jsRound100 (loaded total : Nat) : Nat :=
  (loaded * 200 + total) / (2 * total)

/-- The XHR `progress` listener (S3DragDropUpload.vue lines 78-85) applied to
a list of progress events: each `lengthComputable` event overwrites
`progress` and emits an `upload-progress` snapshot. -/
def applyProgressEvents (uf : UploadFile) : List ProgressEvent → UploadFile × List Event
  | [] => (uf, [])
  | e :: es =>
    if e.lengthComputable then
      let uf1 := { uf with progress := jsRound100 e.loaded e.total }
      let rest := applyProgressEvents uf1 es
      (rest.1, Event.uploadProgress uf1 :: rest.2)
    else
      applyProgressEvents uf es

/-- `uploadToS3` (S3DragDropUpload.vue lines 51-118), written against the
explicit environment behaviours. Returns the final record and the trace.
The JSON body of a successful presign response is assumed well-formed
(destructuring `{uploadUrl, key}` succeeds); `ok = false` raises
`"Failed to get presigned URL"` before the body is read. -/
def uploadToS3 (file : FileDesc) (uf0 : UploadFile)
    (pb : PresignBehavior) (tb : TransferBehavior) : UploadFile × List Event :=
  let uf1 := { uf0 with status := Status.uploading }
  let pre := [Event.uploadStart uf1, Event.presignCall file.name]
  match pb with
  | PresignBehavior.networkFailure msg =>
    let ufE := { uf1 with status := Status.error, error := some msg }
    (ufE, pre ++ [Event.uploadError ufE msg])
  | PresignBehavior.httpResponse ok url key =>
    if ok then
      let uf2 := { uf1 with s3Key := some key }
      let stepped := applyProgressEvents uf2 tb.events
      let uf3 := stepped.1
      match tb.outcome with
      | XhrOutcome.load st =>
        if 200 ≤ st ∧ st < 300 then
          let uf4 := { uf3 with status := Status.completed, progress := 100 }
          (uf4, pre ++ Event.putCall url :: stepped.2 ++ [Event.uploadComplete uf4])
        else
          let msg := "Upload failed with status " ++ toString st
          let uf4 := { uf3 with status := Status.error, error := some msg }
          (uf4, pre ++ Event.putCall url :: stepped.2 ++ [Event.uploadError uf4 msg])
      | XhrOutcome.netError =>
        let msg := "Upload failed"
        let uf4 := { uf3 with status := Status.error, error := some msg }
        (uf4, pre ++ Event.putCall url :: stepped.2 ++ [Event.uploadError uf4 msg])
    else
      let msg := "Failed to get presigned URL"
      let ufE := { uf1 with status := Status.error, error := some msg }
      (ufE, pre ++ [Event.uploadError ufE msg])

/-- One entry of a file selection, pairing the DOM file with the environment
inputs consumed while processing it: the id draw and `new Date()` instant
used by `createUploadFile`, and the network behaviours its upload would see. -/
structure FileInput where
  file : FileDesc
  id : String
  now : Int
  pb : PresignBehavior
  tb : TransferBehavior
deriving DecidableEq

/-- The record-building phase of `handleFiles` (lines 125-135): create the
record, validate, and mark a validation failure on the record. -/
def buildRecord (cfg : S3UploadConfig) (inp : FileInput) : UploadFile :=
  let uf := createUploadFile inp.id inp.now inp.file
  match validateFile cfg inp.file with
  | some msg => { uf with status := Status.error, error := some msg }
  | none => uf

/-- One iteration of the upload loop (lines 140-144): records already in
`error` state are skipped, the rest are uploaded. -/
def runUpload (inp : FileInput) (uf : UploadFile) : UploadFile × List Event :=
  if uf.status = Status.error then (uf, [])
  else uploadToS3 inp.file uf inp.pb inp.tb

/-- The sequential upload loop of `handleFiles`: each upload is awaited to
its terminal state before the next starts, so the traces concatenate in
order. -/
def uploadLoop : List (FileInput × UploadFile) → List UploadFile × List Event
  | [] => ([], [])
  | (inp, uf) :: rest =>
    let one := runUpload inp uf
    let rec' := uploadLoop rest
    (one.1 :: rec'.1, one.2 ++ rec'.2)

/-- `handleFiles` (S3DragDropUpload.vue lines 120-145). `none` models a
`null` `FileList`. Returns the final records and the full trace. -/
def handleFiles (cfg : S3UploadConfig) (files : Option (List FileInput)) :
    List UploadFile × List Event :=
  match files with
  | none => ([], [])
  | some [] => ([], [])
  | some inps =>
    let batch := inps.map (buildRecord cfg)
    let looped := uploadLoop (inps.zip batch)
    (looped.1, Event.filesSelected batch :: looped.2)

/-! ## UploadsTable.vue: the tabular view projector -/

/-- Does `needle` occur at the head of `hay`? (Component of the
`String.prototype.includes` model.) -/
def charsHavePrefix : List Char → List Char → Bool
  | _, [] => true
  | [], _ :: _ => false
  | h :: hs, n :: ns => h = n && charsHavePrefix hs ns

/-- Does `needle` occur anywhere in `hay`? -/
def charsInclude : List Char → List Char → Bool
  | [], needle => charsHavePrefix [] needle
  | h :: t, needle => charsHavePrefix (h :: t) needle || charsInclude t needle

/-- `String.prototype.includes`: substring containment. -/
def jsIncludes (hay needle : String) : Bool :=
  charsInclude hay.toList needle.toList

/-- `String.prototype.toLowerCase`, modelled character-wise (ASCII-accurate,
and structurally recursive so concrete instances evaluate). -/
def jsToLower (s : String) : String :=
  String.mk (s.toList.map Char.toLower)

/-- The filter predicate of `filteredAndSortedUploads`
(UploadsTable.vue lines 33-41): the lower-cased `name`, `type` or `status`
contains the lower-cased filter text. -/
def matchesFilter (filterText : String) (u : UploadFile) : Bool :=
  let search := jsToLower filterText
  jsIncludes (jsToLower u.name) search || jsIncludes (jsToLower u.type) search ||
    jsIncludes (jsToLower (Status.toStr u.status)) search

/-- The filtering stage (lines 30-41): `filterText` is a JS string tested
for truthiness, so the empty string skips filtering. -/
def filterStep (uploads : List UploadFile) (filterText : String) : List UploadFile :=
  if filterText = "" then uploads
  else uploads.filter (fun u => matchesFilter filterText u)

/-- The JS values that can sit in an `UploadFile` field accessed as
`upload[key as keyof UploadFile]`: a string, a number, a `Date` (modelled by
its instant), or `undefined` for absent optional fields and unknown keys. -/
inductive Value where
  | str (s : String)
  | num (n : Int)
  | date (t : Int)
  | undef
deriving DecidableEq

/-- An optional string field as a JS value. -/
def optStrValue : Option String → Value
  | some s => Value.str s
  | none => Value.undef

/-- Dynamic field access `upload[key as keyof UploadFile]`
(UploadsTable.vue lines 45-46). -/
def getField (u : UploadFile) (k : String) : Value :=
  if k = "id" then Value.str u.id
  else if k = "name" then Value.str u.name
  else if k = "size" then Value.num u.size
  else if k = "type" then Value.str u.type
  else if k = "uploadedAt" then Value.date u.uploadedAt
  else if k = "s3Key" then optStrValue u.s3Key
  else if k = "status" then Value.str (Status.toStr u.status)
  else if k = "progress" then Value.num u.progress
  else if k = "error" then optStrValue u.error
  else Value.undef

/-- `String(value)` as used by the comparator's fallback branch. The `Date`
case stands in for `Date.prototype.toString`; it is only reached when a
`Date` is compared against a non-`Date`, which no `UploadFile` field
produces. -/
def Value.jsToString : Value → String
  | Value.str s => s
  | Value.num n => toString n
  | Value.date t => "[Date " ++ toString t ++ "]"
  | Value.undef => "undefined"

/-- Three-way comparison of char lists by code point. -/
def strCmpChars : List Char → List Char → Int
  | [], [] => 0
  | [], _ :: _ => -1
  | _ :: _, [] => 1
  | a :: as, b :: bs =>
    if a.toNat < b.toNat then -1
    else if b.toNat < a.toNat then 1
    else strCmpChars as bs

/-- `String.prototype.localeCompare` modelled under code-point collation
(the sign is all the comparator consumes). -/
def strCompare (s t : String) : Int :=
  strCmpChars s.toList t.toList

/-- The comparator body (UploadsTable.vue lines 48-57). `aVal === bVal` is
modelled by value equality: for strings, numbers and `undefined` this is
exact; two distinct `Date` objects are never `===` in JS, but equal instants
then fall to the `getTime` difference branch which also yields 0, so the
observable result agrees. -/
def jsCompareVals (x y : Value) : Int :=
  if x = y then 0
  else
    match x, y with
    | Value.date a, Value.date b => a - b
    | Value.num a, Value.num b => a - b
    | _, _ => strCompare x.jsToString y.jsToString

/-- Sort direction. -/
inductive SortDir where
  | asc
  | desc
deriving DecidableEq

/-- The full comparator passed to `Array.prototype.sort`
(UploadsTable.vue lines 44-60): `desc` negates the comparison. -/
def jsComparator (k : String) (d : SortDir) (a b : UploadFile) : Int :=
  let c := jsCompareVals (getField a k) (getField b k)
  match d with
  | SortDir.asc => c
  | SortDir.desc => -c

/-- The non-positive-comparator relation under which a stable sort models
`Array.prototype.sort` (stable per the ECMAScript spec). -/
def sortLe (k : String) (d : SortDir) (a b : UploadFile) : Bool :=
  decide (jsComparator k d a b ≤ 0)

/-- The sorting stage (lines 44-60): a stable sort by the comparator. -/
def sortStep (l : List UploadFile) (k : String) (d : SortDir) : List UploadFile :=
  l.mergeSort (sortLe k d)

/-- `filteredAndSortedUploads` (UploadsTable.vue lines 29-63) as a function
of its reactive inputs: filter, then sort; the input list is copied, never
mutated. -/
def filteredAndSortedUploads (uploads : List UploadFile) (filterText : String)
    (k : String) (d : SortDir) : List UploadFile :=
  sortStep (filterStep uploads filterText) k d

/-! ## Validation claims (C1, C7) -/

/-- The spec-level reading of the size rule (amended to positive limits,
matching JS truthiness of `config.maxFileSize`). -/
def SizeViolated (cfg : S3UploadConfig) (f : FileDesc) : Prop :=
  ∃ m, cfg.maxFileSize = some m ∧ 0 < m ∧ m < f.size

/-- The spec-level reading of the type rule: `allowedTypes` is present and
non-empty and the file's type is not a member. -/
def TypeViolated (cfg : S3UploadConfig) (f : FileDesc) : Prop :=
  ∃ ts, cfg.allowedTypes = some ts ∧ ts ≠ [] ∧ f.type ∉ ts

lemma sizeCond_iff (cfg : S3UploadConfig) (f : FileDesc) :
    (truthyNum cfg.maxFileSize && decide (cfg.maxFileSize.getD 0 < f.size)) = true ↔
      SizeViolated cfg f := by
  cases h : cfg.maxFileSize with
  | none => simp [truthyNum, SizeViolated, h]
  | some m =>
    simp only [truthyNum, SizeViolated, h, Option.getD_some, Bool.and_eq_true,
      Bool.not_eq_true', beq_eq_false_iff_ne, decide_eq_true_eq, Option.some.injEq]
    constructor
    · rintro ⟨hm, hlt⟩
      exact ⟨m, rfl, Nat.pos_of_ne_zero hm, hlt⟩
    · rintro ⟨m', hm', hpos, hlt⟩
      cases hm'
      exact ⟨Nat.pos_iff_ne_zero.mp hpos, hlt⟩

lemma typeCond_iff (cfg : S3UploadConfig) (f : FileDesc) :
    (truthyTypes cfg.allowedTypes && !(decide (f.type ∈ cfg.allowedTypes.getD []))) = true ↔
      TypeViolated cfg f := by
  cases h : cfg.allowedTypes with
  | none => simp [truthyTypes, TypeViolated, h]
  | some ts =>
    simp only [truthyTypes, TypeViolated, h, Option.getD_some, Bool.and_eq_true,
      Bool.not_eq_true', beq_eq_false_iff_ne, decide_eq_false_iff_not,
      Option.some.injEq]
    constructor
    · rintro ⟨hne, hmem⟩
      exact ⟨ts, rfl, fun hnil => hne (by simp [hnil]), hmem⟩
    · rintro ⟨ts', hts, hnil, hmem⟩
      cases hts
      exact ⟨by simpa using List.length_pos.mpr hnil |>.ne', hmem⟩

/-- C1 counterexample: `maxFileSize` set to `0` with a file of size `1 > 0`.
The claim's first rule demands a size-exceeded message, but JS truthiness of
`config.maxFileSize` skips the size check entirely, and with no type
restriction `validateFile` accepts the file. -/
theorem C1_counterexample :
    (⟨"https://api.test/presign", none, some 0, none⟩ : S3UploadConfig).maxFileSize = some 0 ∧
    (⟨"a.bin", 1, "application/octet-stream"⟩ : FileDesc).size = 1 ∧
    validateFile ⟨"https://api.test/presign", none, some 0, none⟩
      ⟨"a.bin", 1, "application/octet-stream"⟩ = none := by
  refine ⟨rfl, rfl, by decide⟩

/-- C1 (amended): `validateFile` applies its rules in order with first match
winning, where "maxFileSize is set" is amended to "set to a positive value"
(a zero limit is falsy in JS and disables the size rule): a positive limit
smaller than the file's size yields the size-exceeded message; otherwise a
present, non-empty `allowedTypes` not containing the file's type yields the
type-not-allowed message (which names the offending type); otherwise no
error. -/
theorem C1_validate_first_match (cfg : S3UploadConfig) (f : FileDesc) :
    (SizeViolated cfg f → validateFile cfg f = some (sizeExceededMsg cfg)) ∧
    (¬ SizeViolated cfg f → TypeViolated cfg f →
      validateFile cfg f = some (typeNotAllowedMsg f)) ∧
    (¬ SizeViolated cfg f → ¬ TypeViolated cfg f → validateFile cfg f = none) := by
  refine ⟨fun hs => ?_, fun hns ht => ?_, fun hns hnt => ?_⟩
  · unfold validateFile
    rw [if_pos ((sizeCond_iff cfg f).mpr hs)]
  · unfold validateFile
    rw [if_neg, if_pos ((typeCond_iff cfg f).mpr ht)]
    simp only [Bool.not_eq_true]
    exact Bool.not_eq_true _ ▸ fun hc => hns ((sizeCond_iff cfg f).mp hc)
  · unfold validateFile
    rw [if_neg, if_neg]
    · exact fun hc => hnt ((typeCond_iff cfg f).mp hc)
    · exact fun hc => hns ((sizeCond_iff cfg f).mp hc)

/-- C1 witness: a 101-byte file against a 100-byte limit is rejected with
the size message; a type-violating file against a type-only config gets the
type message naming its type; a conforming file passes. -/
theorem C1_validate_first_match_witness :
    validateFile ⟨"ep", none, some 100, none⟩ ⟨"f", 101, "text/plain"⟩ =
      some (sizeExceededMsg ⟨"ep", none, some 100, none⟩) ∧
    validateFile ⟨"ep", none, none, some ["image/png"]⟩ ⟨"f", 5, "text/plain"⟩ =
      some (typeNotAllowedMsg ⟨"f", 5, "text/plain"⟩) ∧
    validateFile ⟨"ep", none, some 100, some ["text/plain"]⟩ ⟨"f", 5, "text/plain"⟩ = none := by
  refine ⟨?_, ?_, ?_⟩
  · exact (C1_validate_first_match _ _).1 ⟨100, rfl, by decide, by decide⟩
  · exact (C1_validate_first_match _ _).2.1
      (by rintro ⟨m, hm, _⟩; cases hm)
      ⟨["image/png"], rfl, by decide, by decide⟩
  · exact (C1_validate_first_match _ _).2.2
      (by rintro ⟨m, hm, _, hlt⟩; cases hm; exact absurd hlt (by decide))
      (by rintro ⟨ts, hts, _, hmem⟩; cases hts; exact hmem (by decide))

/-- C7 counterexample: with a 5 MiB limit (`maxFileSize = 5242880`) the
message interpolates the JS number `5` as `"5"`, not `"5.0"`: the limit is
not formatted to one decimal place. -/
theorem C7_counterexample :
    validateFile ⟨"ep", none, some 5242880, none⟩ ⟨"big.bin", 6000000, "application/zip"⟩ =
      some "File exceeds maximum size of 5MB" ∧
    jsIncludes "File exceeds maximum size of 5MB" "5.0" = false := by
  exact ⟨by decide, by decide⟩

/-- C7 (amended): the size-exceeded message names the limit in megabytes
(`maxFileSize ÷ 1,048,576`) rendered with the default JS number-to-string
conversion, not with a fixed one-decimal format: for a limit that is a whole
number of mebibytes — the exact quotient `maxFileSize ÷ 1,048,576` is then
the natural number `maxFileSize / 1048576` — the message interpolates the
bare integer with no decimal point (5 MiB prints `"5MB"`, never
`"5.0MB"`). -/
theorem C7_size_message_names_limit (cfg : S3UploadConfig) (f : FileDesc) (m : Nat)
    (hm : cfg.maxFileSize = some m) (h0 : 0 < m) (hs : m < f.size)
    (hdvd : 1048576 ∣ m) :
    validateFile cfg f =
      some ("File exceeds maximum size of " ++ toString (m / 1048576) ++ "MB") ∧
    (m : ℚ) / 1048576 = ((m / 1048576 : Nat) : ℚ) := by
  obtain ⟨c, rfl⟩ := hdvd
  have hc : (1048576 * c) / 1048576 = c := Nat.mul_div_cancel_left c (by norm_num)
  constructor
  · unfold validateFile
    rw [if_pos ((sizeCond_iff cfg f).mpr ⟨1048576 * c, hm, h0, hs⟩)]
    unfold sizeExceededMsg maxSizeMB
    rw [hm]
    have ht : truthyNum (some (1048576 * c)) = true := by
      simp [truthyNum, Nat.pos_iff_ne_zero.mp h0]
    rw [if_pos ht, hc]
    have hql : mkRat (((some (1048576 * c)).getD 0 : Nat) : Int) (1024 * 1024) =
        ((c : Nat) : ℚ) := by
      simp only [Option.getD_some]
      rw [Rat.mkRat_eq_div]
      push_cast
      field_simp
    rw [hql]
    have hj : jsNumToString ((c : Nat) : ℚ) = toString c := by
      simp [jsNumToString, Rat.num_natCast, Rat.den_natCast, Nat.mod_one, Nat.div_one]
    rw [hj]
  · rw [hc]
    push_cast
    field_simp

/-- C7 witness: the 5 MiB limit (`5242880` bytes) yields the message
`"File exceeds maximum size of 5MB"` — the bare integer 5, not `"5.0"`. -/
theorem C7_size_message_names_limit_witness :
    validateFile ⟨"ep", none, some 5242880, none⟩ ⟨"f", 6000000, "t"⟩ =
      some ("File exceeds maximum size of " ++ toString ((5242880 : Nat) / 1048576) ++ "MB") ∧
    ((5242880 : Nat) : ℚ) / 1048576 = (((5242880 : Nat) / 1048576 : Nat) : ℚ) :=
  C7_size_message_names_limit _ _ 5242880 rfl (by decide) (by decide) (by decide)

/-! ## Id generation (C8) and empty selections (C10) -/

/-- C8 counterexample: a random draw whose base-36 expansion is the single
digit `18` (the JS draw `0.5`, printing as `"0.i"`) yields the id `"i"` of
length 1, not at least 9; and two `createUploadFile` invocations fed equal
random draws (here at different instants, for different files) produce
records with identical ids, so id uniqueness over 10,000 invocations is not
guaranteed. -/
theorem C8_counterexample :
    (generateId [(18 : Fin 36)]).length = 1 ∧
    (createUploadFile (generateId [(18 : Fin 36)]) 1 ⟨"a.png", 5, "image/png"⟩).id =
      (createUploadFile (generateId [(18 : Fin 36)]) 2 ⟨"b.txt", 7, "text/plain"⟩).id := by
  exact ⟨by decide, rfl⟩

lemma base36Char_injective : Function.Injective base36Char := by
  intro x y h
  revert h
  revert x y
  decide

/-- C8 (amended): `generateId` returns the first at-most-nine base-36 digits
of the random draw's fractional expansion: the id has length
`min 9 (number of digits)` (so at most 9, and exactly 9 only when the draw
has at least 9 significant base-36 digits), every character is a base-36
digit (`0`-`9` or `a`-`z`), and two invocations produce the same id exactly
when their draws agree on the first nine digits — uniqueness across 10,000
invocations is only probabilistic, not guaranteed. -/
theorem C8_generateId_spec (d d' : List (Fin 36)) :
    (generateId d).length = min 9 d.length ∧
    (∀ c ∈ (generateId d).toList,
      (48 ≤ c.toNat ∧ c.toNat ≤ 57) ∨ (97 ≤ c.toNat ∧ c.toNat ≤ 122)) ∧
    (generateId d = generateId d' ↔ d.take 9 = d'.take 9) := by
  refine ⟨?_, ?_, ?_⟩
  · simp [generateId, String.length]
  · intro c hc
    simp only [generateId, String.toList, List.mem_map] at hc
    obtain ⟨x, -, rfl⟩ := hc
    revert x
    decide
  · constructor
    · intro h
      have hdata : (d.take 9).map base36Char = (d'.take 9).map base36Char :=
        congrArg String.data h
      exact List.map_injective_iff.mpr base36Char_injective hdata
    · intro h
      simp [generateId, h]

/-- C8 witness: the amended characterization at concrete draws — a
twelve-digit draw yields a nine-character id, and two draws differing only
past the ninth digit collide. -/
theorem C8_generateId_spec_witness :
    (generateId (List.replicate 12 (5 : Fin 36))).length =
      min 9 (List.replicate 12 (5 : Fin 36)).length ∧
    (generateId (List.replicate 12 (5 : Fin 36)) =
        generateId (List.replicate 9 (5 : Fin 36) ++ [(7 : Fin 36)]) ↔
      (List.replicate 12 (5 : Fin 36)).take 9 =
        (List.replicate 9 (5 : Fin 36) ++ [(7 : Fin 36)]).take 9) :=
  ⟨(C8_generateId_spec (List.replicate 12 (5 : Fin 36))
      (List.replicate 9 (5 : Fin 36) ++ [(7 : Fin 36)])).1,
   (C8_generateId_spec (List.replicate 12 (5 : Fin 36))
      (List.replicate 9 (5 : Fin 36) ++ [(7 : Fin 36)])).2.2⟩

/-- C10 (confirmed): a `null` or empty file selection short-circuits
`handleFiles`: no records are created, nothing is emitted (not even the
`files-selected` event), and no network request is issued — the returned
trace, which includes the `presignCall`/`putCall` network markers, is
empty. -/
theorem C10_empty_selection (cfg : S3UploadConfig) :
    handleFiles cfg none = ([], []) ∧ handleFiles cfg (some []) = ([], []) :=
  ⟨rfl, rfl⟩

/-! ## Upload lifecycle claims (C2, C9) -/

lemma applyProgressEvents_s3Key (es : List ProgressEvent) (uf : UploadFile) :
    (applyProgressEvents uf es).1.s3Key = uf.s3Key := by
  induction es generalizing uf with
  | nil => rfl
  | cons e t ih =>
    simp only [applyProgressEvents]
    split
    · exact ih _
    · exact ih _

lemma applyProgressEvents_status (es : List ProgressEvent) (uf : UploadFile) :
    (applyProgressEvents uf es).1.status = uf.status := by
  induction es generalizing uf with
  | nil => rfl
  | cons e t ih =>
    simp only [applyProgressEvents]
    split
    · exact ih _
    · exact ih _

/-- C2 (confirmed): when the destination request succeeds with
`{uploadUrl, key}` and the transfer terminates with a 2xx status, the final
record has `status = completed`, `progress = 100` and `s3Key = key`, and an
`upload-complete` notification carrying that record is emitted. -/
theorem C2_success_path (f : FileDesc) (uf : UploadFile) (url key : String)
    (tb : TransferBehavior) (st : Nat)
    (hout : tb.outcome = XhrOutcome.load st) (hlo : 200 ≤ st) (hhi : st < 300) :
    (uploadToS3 f uf (PresignBehavior.httpResponse true url key) tb).1.status =
        Status.completed ∧
    (uploadToS3 f uf (PresignBehavior.httpResponse true url key) tb).1.progress = 100 ∧
    (uploadToS3 f uf (PresignBehavior.httpResponse true url key) tb).1.s3Key = some key ∧
    Event.uploadComplete (uploadToS3 f uf (PresignBehavior.httpResponse true url key) tb).1 ∈
      (uploadToS3 f uf (PresignBehavior.httpResponse true url key) tb).2 := by
  simp only [uploadToS3, hout, if_pos (And.intro hlo hhi), if_true]
  simp [applyProgressEvents_s3Key]

/-- C2 witness: one progress event, then a 200 terminal status. -/
theorem C2_success_path_witness :
    (uploadToS3 ⟨"a.png", 5, "image/png"⟩ (createUploadFile "id1" 50 ⟨"a.png", 5, "image/png"⟩)
        (PresignBehavior.httpResponse true "https://bucket.test/u" "uploads/a.png")
        ⟨[⟨true, 3, 5⟩], XhrOutcome.load 200⟩).1.status = Status.completed ∧
    (uploadToS3 ⟨"a.png", 5, "image/png"⟩ (createUploadFile "id1" 50 ⟨"a.png", 5, "image/png"⟩)
        (PresignBehavior.httpResponse true "https://bucket.test/u" "uploads/a.png")
        ⟨[⟨true, 3, 5⟩], XhrOutcome.load 200⟩).1.progress = 100 ∧
    (uploadToS3 ⟨"a.png", 5, "image/png"⟩ (createUploadFile "id1" 50 ⟨"a.png", 5, "image/png"⟩)
        (PresignBehavior.httpResponse true "https://bucket.test/u" "uploads/a.png")
        ⟨[⟨true, 3, 5⟩], XhrOutcome.load 200⟩).1.s3Key = some "uploads/a.png" ∧
    Event.uploadComplete (uploadToS3 ⟨"a.png", 5, "image/png"⟩
        (createUploadFile "id1" 50 ⟨"a.png", 5, "image/png"⟩)
        (PresignBehavior.httpResponse true "https://bucket.test/u" "uploads/a.png")
        ⟨[⟨true, 3, 5⟩], XhrOutcome.load 200⟩).1 ∈
      (uploadToS3 ⟨"a.png", 5, "image/png"⟩ (createUploadFile "id1" 50 ⟨"a.png", 5, "image/png"⟩)
        (PresignBehavior.httpResponse true "https://bucket.test/u" "uploads/a.png")
        ⟨[⟨true, 3, 5⟩], XhrOutcome.load 200⟩).2 :=
  C2_success_path _ _ _ _ _ 200 rfl (by decide) (by decide)

/-- C9 (confirmed): `s3Key` is assigned from the destination response before
the transfer runs, and the error path does not clear it — if the destination
request succeeds but the transfer fails (network error or non-2xx status),
the final record has `status = error` with `s3Key` still set to the returned
key. -/
theorem C9_key_survives_transfer_failure (f : FileDesc) (uf : UploadFile)
    (url key : String) (tb : TransferBehavior)
    (hfail : tb.outcome = XhrOutcome.netError ∨
      ∃ st, tb.outcome = XhrOutcome.load st ∧ ¬(200 ≤ st ∧ st < 300)) :
    (uploadToS3 f uf (PresignBehavior.httpResponse true url key) tb).1.status =
        Status.error ∧
    (uploadToS3 f uf (PresignBehavior.httpResponse true url key) tb).1.s3Key = some key := by
  rcases hfail with hnet | ⟨st, hld, hst⟩
  · simp only [uploadToS3, hnet, if_true]
    simp [applyProgressEvents_s3Key]
  · simp only [uploadToS3, hld, if_neg hst, if_true]
    simp [applyProgressEvents_s3Key]

/-- C9 witness: presign succeeds with key `"k9"`, the PUT then fails with
status 503; the record ends in `error` with `s3Key = some "k9"`. -/
theorem C9_key_survives_transfer_failure_witness :
    (uploadToS3 ⟨"b.txt", 9, "text/plain"⟩ (createUploadFile "id9" 60 ⟨"b.txt", 9, "text/plain"⟩)
        (PresignBehavior.httpResponse true "https://bucket.test/u9" "k9")
        ⟨[], XhrOutcome.load 503⟩).1.status = Status.error ∧
    (uploadToS3 ⟨"b.txt", 9, "text/plain"⟩ (createUploadFile "id9" 60 ⟨"b.txt", 9, "text/plain"⟩)
        (PresignBehavior.httpResponse true "https://bucket.test/u9" "k9")
        ⟨[], XhrOutcome.load 503⟩).1.s3Key = some "k9" :=
  C9_key_survives_transfer_failure _ _ _ _ _ (Or.inr ⟨503, rfl, by decide⟩)

/-! ## Batch sequencing (C3) -/

lemma uploadLoop_eq (ps : List (FileInput × UploadFile)) :
    uploadLoop ps =
      (ps.map (fun p => (runUpload p.1 p.2).1),
       (ps.map (fun p => (runUpload p.1 p.2).2)).flatten) := by
  induction ps with
  | nil => rfl
  | cons a t ih => simp [uploadLoop, ih]

lemma uploadLoop_zip (cfg : S3UploadConfig) (inps : List FileInput) :
    uploadLoop (inps.zip (inps.map (buildRecord cfg))) =
      (inps.map (fun i => (runUpload i (buildRecord cfg i)).1),
       (inps.map (fun i => (runUpload i (buildRecord cfg i)).2)).flatten) := by
  have hz : inps.zip (inps.map (buildRecord cfg)) =
      inps.map (fun i => (i, buildRecord cfg i)) := by
    simpa using List.zip_map' id (buildRecord cfg) inps
  rw [hz, uploadLoop_eq, List.map_map, List.map_map]
  rfl

/-- C3 (confirmed): within one `handleFiles` batch, processing is strictly
sequential and per-record independent: the final record list is the map of a
per-input function over the selection — so no record's outcome depends on a
sibling's failure — and the trace is the `files-selected` event followed by
the per-record traces concatenated in selection order, so every event of
upload N (including its terminal one) precedes every event of upload N+1. -/
theorem C3_sequential_batch (cfg : S3UploadConfig) (inps : List FileInput)
    (hne : inps ≠ []) :
    (handleFiles cfg (some inps)).1 =
        inps.map (fun i => (runUpload i (buildRecord cfg i)).1) ∧
    (handleFiles cfg (some inps)).2 =
        Event.filesSelected (inps.map (buildRecord cfg)) ::
          (inps.map (fun i => (runUpload i (buildRecord cfg i)).2)).flatten := by
  match inps, hne with
  | a :: t, _ =>
    constructor
    · show (uploadLoop ((a :: t).zip ((a :: t).map (buildRecord cfg)))).1 = _
      rw [uploadLoop_zip]
    · show Event.filesSelected ((a :: t).map (buildRecord cfg)) ::
          (uploadLoop ((a :: t).zip ((a :: t).map (buildRecord cfg)))).2 = _
      rw [uploadLoop_zip]

/-- The shared presign/transfer environment of the three-file scenario:
files 1 and 3 transfer successfully, file 2's PUT fails with 500. -/
def scenarioBatch : List FileInput :=
  [⟨⟨"f1.txt", 10, "text/plain"⟩, "id1", 100,
      PresignBehavior.httpResponse true "https://b.test/u1" "k1",
      ⟨[⟨true, 1, 2⟩], XhrOutcome.load 200⟩⟩,
   ⟨⟨"f2.txt", 20, "text/plain"⟩, "id2", 101,
      PresignBehavior.httpResponse true "https://b.test/u2" "k2",
      ⟨[], XhrOutcome.load 500⟩⟩,
   ⟨⟨"f3.txt", 30, "text/plain"⟩, "id3", 102,
      PresignBehavior.httpResponse true "https://b.test/u3" "k3",
      ⟨[⟨true, 2, 2⟩], XhrOutcome.load 201⟩⟩]

/-- C3 witness: the decomposition applied to the three-file batch whose
second transfer fails, plus the end-to-end scenario check — final statuses
are `completed, error, completed` in selection order. -/
theorem C3_sequential_batch_witness :
    ((handleFiles ⟨"ep", none, none, none⟩ (some scenarioBatch)).1 =
        scenarioBatch.map
          (fun i => (runUpload i (buildRecord ⟨"ep", none, none, none⟩ i)).1) ∧
      (handleFiles ⟨"ep", none, none, none⟩ (some scenarioBatch)).2 =
        Event.filesSelected (scenarioBatch.map (buildRecord ⟨"ep", none, none, none⟩)) ::
          (scenarioBatch.map
            (fun i => (runUpload i (buildRecord ⟨"ep", none, none, none⟩ i)).2)).flatten) ∧
    (handleFiles ⟨"ep", none, none, none⟩ (some scenarioBatch)).1.map UploadFile.status =
      [Status.completed, Status.error, Status.completed] :=
  ⟨C3_sequential_batch ⟨"ep", none, none, none⟩ scenarioBatch (by decide), by decide⟩

/-! ## Progress tracking (C6) -/

/-- The `progress` snapshots carried by the `upload-progress` events of a
trace: the record's progress values as observed while uploading. -/
def progressValues (tr : List Event) : List Nat :=
  tr.filterMap (fun e =>
    match e with
    | Event.uploadProgress f => some f.progress
    | _ => none)

/-- C6 counterexample. First run: the transport reports `loaded = 2` then
`loaded = 1` (out of 2); the progress snapshots while `status = uploading`
are `100, 50` — decreasing, so progress is not monotone for every event
sequence. Second run: a progress event with `loaded = total` is followed by
a failing terminal status; the final record has `progress = 100` with
`status = error`, so progress does not reach 100 "exactly when" the record
completes. -/
theorem C6_counterexample :
    progressValues (uploadToS3 ⟨"a.png", 4, "image/png"⟩
        (createUploadFile "c6" 1 ⟨"a.png", 4, "image/png"⟩)
        (PresignBehavior.httpResponse true "u" "k")
        ⟨[⟨true, 2, 2⟩, ⟨true, 1, 2⟩], XhrOutcome.load 200⟩).2 = [100, 50] ∧
    (uploadToS3 ⟨"a.png", 4, "image/png"⟩
        (createUploadFile "c6b" 1 ⟨"a.png", 4, "image/png"⟩)
        (PresignBehavior.httpResponse true "u" "k")
        ⟨[⟨true, 1, 1⟩], XhrOutcome.load 500⟩).1.status = Status.error ∧
    (uploadToS3 ⟨"a.png", 4, "image/png"⟩
        (createUploadFile "c6b" 1 ⟨"a.png", 4, "image/png"⟩)
        (PresignBehavior.httpResponse true "u" "k")
        ⟨[⟨true, 1, 1⟩], XhrOutcome.load 500⟩).1.progress = 100 := by
  exact ⟨by decide, by decide, by decide⟩

lemma jsRound100_mono {a b : Nat} (T : Nat) (h : a ≤ b) :
    jsRound100 a T ≤ jsRound100 b T :=
  Nat.div_le_div_right (by omega)

lemma progressValues_apply (T : Nat) (es : List ProgressEvent) (uf : UploadFile)
    (hev : ∀ e ∈ es, e.lengthComputable = true ∧ e.total = T) :
    progressValues (applyProgressEvents uf es).2 =
      es.map (fun e => jsRound100 e.loaded T) := by
  induction es generalizing uf with
  | nil => rfl
  | cons e t ih =>
    obtain ⟨hc, hT⟩ := hev e (by simp)
    have ht : ∀ x ∈ t, x.lengthComputable = true ∧ x.total = T :=
      fun x hx => hev x (by simp [hx])
    simp only [applyProgressEvents, hc, if_true, progressValues,
      List.filterMap_cons, List.map_cons]
    rw [hT]
    exact congrArg _ (ih _ ht)

/-- C6 (amended): assuming the transport behaves as XHR does — every
`lengthComputable` progress event reports the same total and a
non-decreasing byte count — the record's progress is monotonically
non-decreasing while `status = uploading` (starting from the fresh record's
0); and whenever the final status is `completed` the final progress is 100.
(The converse direction of "exactly" fails: progress can reach 100 from a
final progress event even when the transfer then fails.) -/
theorem C6_progress_monotone (f : FileDesc) (uf : UploadFile) (pb : PresignBehavior)
    (tb : TransferBehavior) (T : Nat) (h0 : uf.progress = 0)
    (hev : ∀ e ∈ tb.events, e.lengthComputable = true ∧ e.total = T)
    (hmono : List.Chain' (· ≤ ·) (tb.events.map ProgressEvent.loaded)) :
    List.Chain' (· ≤ ·) (uf.progress :: progressValues (uploadToS3 f uf pb tb).2) ∧
    ((uploadToS3 f uf pb tb).1.status = Status.completed →
      (uploadToS3 f uf pb tb).1.progress = 100) := by
  obtain ⟨es, outc⟩ := tb
  replace hev : ∀ e ∈ es, e.lengthComputable = true ∧ e.total = T := hev
  replace hmono : List.Chain' (· ≤ ·) (es.map ProgressEvent.loaded) := hmono
  have hchain : ∀ u : UploadFile,
      List.Chain' (· ≤ ·) (uf.progress :: progressValues (applyProgressEvents u es).2) := by
    intro u
    rw [progressValues_apply T es u hev, List.chain'_cons']
    refine ⟨fun b _ => by rw [h0]; exact Nat.zero_le b, ?_⟩
    have h1 := (List.chain'_map ProgressEvent.loaded).mp hmono
    exact (List.chain'_map _).mpr (h1.imp fun a b hab => jsRound100_mono T hab)
  rcases pb with msg | ⟨ok, url, key⟩
  · exact ⟨by simp [uploadToS3, progressValues, List.chain'_singleton],
      fun hc => by simp [uploadToS3] at hc⟩
  · cases ok
    · exact ⟨by simp [uploadToS3, progressValues, List.chain'_singleton],
        fun hc => by simp [uploadToS3] at hc⟩
    · cases outc with
      | load st =>
        by_cases h2 : 200 ≤ st ∧ st < 300
        · constructor
          · have := hchain { uf with status := Status.uploading, s3Key := some key }
            simp only [uploadToS3, if_pos h2, if_true]
            simpa [progressValues, List.filterMap_append] using this
          · intro _
            simp [uploadToS3, if_pos h2]
        · constructor
          · have := hchain { uf with status := Status.uploading, s3Key := some key }
            simp only [uploadToS3, if_neg h2, if_true]
            simpa [progressValues, List.filterMap_append] using this
          · intro hc
            simp [uploadToS3, if_neg h2] at hc
      | netError =>
        constructor
        · have := hchain { uf with status := Status.uploading, s3Key := some key }
          simp only [uploadToS3, if_true]
          simpa [progressValues, List.filterMap_append] using this
        · intro hc
          simp [uploadToS3] at hc

/-- C6 witness: a well-behaved transport (total 4, loaded 1 then 3, then a
204 terminal status) yields non-decreasing progress and a completed record
at progress 100. -/
theorem C6_progress_monotone_witness :
    List.Chain' (· ≤ ·)
      ((createUploadFile "cw" 0 ⟨"w.bin", 4, "application/zip"⟩).progress ::
        progressValues (uploadToS3 ⟨"w.bin", 4, "application/zip"⟩
          (createUploadFile "cw" 0 ⟨"w.bin", 4, "application/zip"⟩)
          (PresignBehavior.httpResponse true "uw" "kw")
          ⟨[⟨true, 1, 4⟩, ⟨true, 3, 4⟩], XhrOutcome.load 204⟩).2) ∧
    ((uploadToS3 ⟨"w.bin", 4, "application/zip"⟩
        (createUploadFile "cw" 0 ⟨"w.bin", 4, "application/zip"⟩)
        (PresignBehavior.httpResponse true "uw" "kw")
        ⟨[⟨true, 1, 4⟩, ⟨true, 3, 4⟩], XhrOutcome.load 204⟩).1.status = Status.completed →
      (uploadToS3 ⟨"w.bin", 4, "application/zip"⟩
        (createUploadFile "cw" 0 ⟨"w.bin", 4, "application/zip"⟩)
        (PresignBehavior.httpResponse true "uw" "kw")
        ⟨[⟨true, 1, 4⟩, ⟨true, 3, 4⟩], XhrOutcome.load 204⟩).1.progress = 100) :=
  C6_progress_monotone _ _ _ _ 4 rfl (by decide)
    (show List.Chain' (· ≤ ·) [1, 3] from List.chain'_pair.mpr (by norm_num))

/-! ## Table filtering (C4) -/

lemma charsHavePrefix_iff : ∀ (hay needle : List Char),
    charsHavePrefix hay needle = true ↔ needle <+: hay
  | _, [] => by simp [charsHavePrefix]
  | [], _ :: _ => by simp [charsHavePrefix]
  | h :: hs, n :: ns => by
    simp only [charsHavePrefix, Bool.and_eq_true, decide_eq_true_eq,
      charsHavePrefix_iff hs ns, List.cons_prefix_cons]
    exact and_congr_left (fun _ => eq_comm)

lemma charsInclude_iff : ∀ (hay needle : List Char),
    charsInclude hay needle = true ↔ needle <:+: hay
  | [], needle => by
    simp only [charsInclude, charsHavePrefix_iff]
    simp
  | h :: t, needle => by
    simp only [charsInclude, Bool.or_eq_true, charsHavePrefix_iff,
      charsInclude_iff t needle]
    exact (List.infix_cons_iff).symm

/-- The spec's wording of the filter predicate: the lower-cased `name`,
`type` or `status` contains the lower-cased filter text as a substring. -/
def SpecMatch (ft : String) (u : UploadFile) : Prop :=
  (jsToLower ft).toList <:+: (jsToLower u.name).toList ∨
  (jsToLower ft).toList <:+: (jsToLower u.type).toList ∨
  (jsToLower ft).toList <:+: (jsToLower (Status.toStr u.status)).toList

/-- C4 (confirmed): with non-empty `filterText` the projection is a
permutation of exactly those records whose lower-cased `name`, `type` or
`status` contains the lower-cased filter text as a substring (the filter
predicate coincides with the spec's case-insensitive substring match, and
the column-level `filterable` flags are never consulted — the projection is
a function of the records, filter text, sort key and direction alone); with
empty `filterText` the projection is a permutation of all records. -/
theorem C4_filter_exact (uploads : List UploadFile) (ft k : String) (d : SortDir) :
    (ft ≠ "" → (filteredAndSortedUploads uploads ft k d).Perm
        (uploads.filter (fun u => matchesFilter ft u))) ∧
    (∀ u, matchesFilter ft u = true ↔ SpecMatch ft u) ∧
    (filteredAndSortedUploads uploads "" k d).Perm uploads := by
  refine ⟨fun hft => ?_, fun u => ?_, ?_⟩
  · unfold filteredAndSortedUploads sortStep filterStep
    rw [if_neg hft]
    exact List.mergeSort_perm _ _
  · simp only [matchesFilter, jsIncludes, Bool.or_eq_true, charsInclude_iff, SpecMatch]
    exact or_assoc
  · unfold filteredAndSortedUploads sortStep filterStep
    rw [if_pos rfl]
    exact List.mergeSort_perm _ _

/-- C4 witness: end-to-end scenario — `filterText = "png"` over
`a.png`(completed) and `b.txt`(pending) keeps exactly `a.png`, and the full
projection is `[a.png]`. -/
theorem C4_filter_exact_witness :
    (filteredAndSortedUploads
        [⟨"1", "a.png", 10, "image/png", 5, none, Status.completed, 100, none⟩,
         ⟨"2", "b.txt", 20, "text/plain", 6, none, Status.pending, 0, none⟩]
        "png" "uploadedAt" SortDir.desc).Perm
      ([⟨"1", "a.png", 10, "image/png", 5, none, Status.completed, 100, none⟩,
        ⟨"2", "b.txt", 20, "text/plain", 6, none, Status.pending, 0, none⟩].filter
          (fun u => matchesFilter "png" u)) ∧
    filteredAndSortedUploads
        [⟨"1", "a.png", 10, "image/png", 5, none, Status.completed, 100, none⟩,
         ⟨"2", "b.txt", 20, "text/plain", 6, none, Status.pending, 0, none⟩]
        "png" "uploadedAt" SortDir.desc =
      [⟨"1", "a.png", 10, "image/png", 5, none, Status.completed, 100, none⟩] := by
  constructor
  · exact (C4_filter_exact _ "png" "uploadedAt" SortDir.desc).1 (by decide)
  · unfold filteredAndSortedUploads sortStep
    rw [show filterStep
        [⟨"1", "a.png", 10, "image/png", 5, none, Status.completed, 100, none⟩,
         ⟨"2", "b.txt", 20, "text/plain", 6, none, Status.pending, 0, none⟩] "png" =
        [⟨"1", "a.png", 10, "image/png", 5, none, Status.completed, 100, none⟩] from by decide]
    exact List.mergeSort_singleton _

/-! ## Sorting stability (C5)

`Array.prototype.sort` is stable (ECMAScript 2019+), modelled by
`List.mergeSort`. Stability of the embedded sort against the JS comparator
needs the comparator's non-positive relation to be transitive and total; this
holds because for any fixed sort key all field values fall in one comparison
family (all `Date`s, all numbers, or all strings/`undefined`). -/

lemma strCmpChars_refl : ∀ l : List Char, strCmpChars l l = 0
  | [] => rfl
  | a :: as => by simp [strCmpChars, strCmpChars_refl as]

lemma strCmpChars_neg : ∀ (a b : List Char), strCmpChars b a = - strCmpChars a b
  | [], [] => rfl
  | [], _ :: _ => rfl
  | _ :: _, [] => rfl
  | x :: xs, y :: ys => by
    simp only [strCmpChars]
    split_ifs <;> first | omega | exact strCmpChars_neg xs ys

lemma strCmpChars_trans_nonpos : ∀ (a b c : List Char),
    strCmpChars a b ≤ 0 → strCmpChars b c ≤ 0 → strCmpChars a c ≤ 0
  | [], _, c, _, _ => by cases c <;> simp [strCmpChars]
  | _ :: _, [], _, h1, _ => by simp only [strCmpChars] at h1; omega
  | _ :: _, _ :: _, [], _, h2 => by simp only [strCmpChars] at h2; omega
  | x :: xs, y :: ys, z :: zs, h1, h2 => by
    simp only [strCmpChars] at h1 h2 ⊢
    split_ifs at h1 h2 ⊢ <;>
      first
        | omega
        | exact strCmpChars_trans_nonpos xs ys zs h1 h2

/-- The three comparison families a sort key's values can fall in. -/
inductive Fam where
  | dates
  | nums
  | strs

/-- Which family `getField · k` lands in, following `getField`'s key chain. -/
def famOf (k : String) : Fam :=
  if k = "id" then Fam.strs
  else if k = "name" then Fam.strs
  else if k = "size" then Fam.nums
  else if k = "type" then Fam.strs
  else if k = "uploadedAt" then Fam.dates
  else if k = "s3Key" then Fam.strs
  else if k = "status" then Fam.strs
  else if k = "progress" then Fam.nums
  else if k = "error" then Fam.strs
  else Fam.strs

/-- Membership of a JS value in a comparison family (`strs` also contains
`undefined`, which compares via its string form). -/
def Value.inFam : Value → Fam → Prop
  | Value.date _, Fam.dates => True
  | Value.num _, Fam.nums => True
  | Value.str _, Fam.strs => True
  | Value.undef, Fam.strs => True
  | _, _ => False

lemma getField_inFam (u : UploadFile) (k : String) :
    (getField u k).inFam (famOf k) := by
  unfold getField famOf
  split_ifs <;>
    first
      | trivial
      | (cases u.s3Key <;> trivial)
      | (cases u.error <;> trivial)

lemma jsCompareVals_dates (a b : Int) :
    jsCompareVals (Value.date a) (Value.date b) = a - b := by
  by_cases h : a = b
  · subst h; simp [jsCompareVals]
  · simp [jsCompareVals, h]

lemma jsCompareVals_nums (a b : Int) :
    jsCompareVals (Value.num a) (Value.num b) = a - b := by
  by_cases h : a = b
  · subst h; simp [jsCompareVals]
  · simp [jsCompareVals, h]

lemma jsCompareVals_strs {x y : Value} (hx : x.inFam Fam.strs) (hy : y.inFam Fam.strs) :
    jsCompareVals x y = strCompare x.jsToString y.jsToString := by
  by_cases hxy : x = y
  · subst hxy
    simp [jsCompareVals, strCompare, strCmpChars_refl]
  · cases x <;> cases y <;> simp_all [jsCompareVals, Value.inFam]

lemma cmp_antisymm {x y : Value} {fm : Fam} (hx : x.inFam fm) (hy : y.inFam fm) :
    jsCompareVals y x = - jsCompareVals x y := by
  cases fm with
  | dates =>
    cases x <;> cases y <;> simp_all [Value.inFam, jsCompareVals_dates]
  | nums =>
    cases x <;> cases y <;> simp_all [Value.inFam, jsCompareVals_nums]
  | strs =>
    rw [jsCompareVals_strs hx hy, jsCompareVals_strs hy hx]
    exact strCmpChars_neg _ _

lemma cmp_nonpos_trans {x y z : Value} {fm : Fam}
    (hx : x.inFam fm) (hy : y.inFam fm) (hz : z.inFam fm)
    (h1 : jsCompareVals x y ≤ 0) (h2 : jsCompareVals y z ≤ 0) :
    jsCompareVals x z ≤ 0 := by
  cases fm with
  | dates =>
    cases x <;> cases y <;> cases z <;>
      simp_all [Value.inFam, jsCompareVals_dates]
    omega
  | nums =>
    cases x <;> cases y <;> cases z <;>
      simp_all [Value.inFam, jsCompareVals_nums]
    omega
  | strs =>
    rw [jsCompareVals_strs hx hy] at h1
    rw [jsCompareVals_strs hy hz] at h2
    rw [jsCompareVals_strs hx hz]
    exact strCmpChars_trans_nonpos _ _ _ h1 h2

lemma sortLe_trans (k : String) (d : SortDir) :
    ∀ a b c : UploadFile, sortLe k d a b → sortLe k d b c → sortLe k d a c := by
  intro a b c h1 h2
  have ha := getField_inFam a k
  have hb := getField_inFam b k
  have hc := getField_inFam c k
  simp only [sortLe, jsComparator, decide_eq_true_eq] at h1 h2 ⊢
  cases d with
  | asc => exact cmp_nonpos_trans ha hb hc h1 h2
  | desc =>
    simp only at h1 h2 ⊢
    have e1 := cmp_antisymm ha hb
    have e2 := cmp_antisymm hb hc
    have e3 := cmp_antisymm ha hc
    have := cmp_nonpos_trans hc hb ha (by omega) (by omega)
    omega

lemma sortLe_total (k : String) (d : SortDir) :
    ∀ a b : UploadFile, sortLe k d a b || sortLe k d b a := by
  intro a b
  have e := cmp_antisymm (getField_inFam a k) (getField_inFam b k)
  cases d <;>
    simp only [sortLe, jsComparator, Bool.or_eq_true, decide_eq_true_eq] <;> omega

/-- C5 (confirmed): the sort is stable — any two records whose sort-key
field values compare equal under the comparator keep, in the projected
output, the relative order they had in the filtered input, for every key and
direction. -/
theorem C5_sort_stable (uploads : List UploadFile) (ft k : String) (d : SortDir)
    (a b : UploadFile)
    (hsub : [a, b].Sublist (filterStep uploads ft))
    (heq : jsCompareVals (getField a k) (getField b k) = 0) :
    [a, b].Sublist (filteredAndSortedUploads uploads ft k d) := by
  unfold filteredAndSortedUploads sortStep
  refine List.pair_sublist_mergeSort (sortLe_trans k d) (sortLe_total k d) ?_ hsub
  simp only [sortLe, jsComparator, decide_eq_true_eq]
  cases d <;> simp [heq]

/-- C5 witness: two records with equal `size` (the sort key) stay in their
original relative order after projecting with an empty filter. -/
theorem C5_sort_stable_witness :
    [(⟨"1", "a", 10, "t", 5, none, Status.pending, 0, none⟩ : UploadFile),
     ⟨"2", "b", 10, "t", 6, none, Status.pending, 0, none⟩].Sublist
      (filteredAndSortedUploads
        [⟨"1", "a", 10, "t", 5, none, Status.pending, 0, none⟩,
         ⟨"2", "b", 10, "t", 6, none, Status.pending, 0, none⟩] "" "size" SortDir.asc) :=
  C5_sort_stable _ "" "size" SortDir.asc _ _ (List.Sublist.refl _) (by decide)

end AppComponents
